import Mathlib

/-!
Verification of the motion-resolution core of a 2D platformer
(`movement.rs`, `collide.rs`, `line_segment.rs`, `game.rs`).

Scalars of the `f64`-based modules are embedded as `ℚ` (exact arithmetic
standing in for floating point where the claims are structural); the
NaN-sensitive claims about `f32`/`f64` special values use a separate
explicit model `Fl` with `inf`/`ninf`/`nan`.

Modules of the repository that are referenced by the sources but are not
present (`shape.rs`, `left_solid_edge.rs`, `bump.rs`, the `best` crate)
are modelled from the specification; each such definition carries a doc
comment starting with `Modelled from the spec:`.
-/

/-- Rust `cgmath::Vector2<f64>` embedded with exact rational coordinates. -/
structure V2 where
  x : ℚ
  y : ℚ
deriving DecidableEq, Repr

instance : Add V2 := ⟨fun a b => ⟨a.x + b.x, a.y + b.y⟩⟩

instance : Sub V2 := ⟨fun a b => ⟨a.x - b.x, a.y - b.y⟩⟩

instance : Neg V2 := ⟨fun a => ⟨-a.x, -a.y⟩⟩

instance : SMul ℚ V2 := ⟨fun k v => ⟨k * v.x, k * v.y⟩⟩

theorem V2.ext_iff' {a b : V2} : a = b ↔ a.x = b.x ∧ a.y = b.y := by
  constructor
  · intro h; rw [h]; exact ⟨rfl, rfl⟩
  · intro ⟨hx, hy⟩; cases a; cases b; simp_all

@[simp] theorem V2.add_x (a b : V2) : (a + b).x = a.x + b.x := rfl

@[simp] theorem V2.add_y (a b : V2) : (a + b).y = a.y + b.y := rfl

@[simp] theorem V2.sub_x (a b : V2) : (a - b).x = a.x - b.x := rfl

@[simp] theorem V2.sub_y (a b : V2) : (a - b).y = a.y - b.y := rfl

@[simp] theorem V2.neg_x (a : V2) : (-a).x = -a.x := rfl

@[simp] theorem V2.neg_y (a : V2) : (-a).y = -a.y := rfl

@[simp] theorem V2.smul_x (k : ℚ) (a : V2) : (k • a).x = k * a.x := rfl

@[simp] theorem V2.smul_y (k : ℚ) (a : V2) : (k • a).y = k * a.y := rfl

/-- Two-dimensional cross product (`left_solid_edge::vector2_cross_product`). -/
def V2.cross (a b : V2) : ℚ := a.x * b.y - a.y * b.x

/-- Rust `cgmath` dot product. -/
def V2.dot (a b : V2) : ℚ := a.x * b.x + a.y * b.y

/-- Rust `cgmath::InnerSpace::magnitude2` — squared magnitude. -/
def V2.magnitude2 (a : V2) : ℚ := a.dot a

/-- Rust `cgmath::InnerSpace::project_on`:
`self.project_on(other) = other * (self.dot(other) / other.magnitude2())`.
(Division by zero is `0` in `ℚ`; the `f64` NaN behaviour at a zero
`other` is treated separately in the `Fl` model.) -/
def V2.project_on (self other : V2) : V2 :=
  (self.dot other / other.magnitude2) • other

/-- Sum of a list of vectors. -/
def sumV (l : List V2) : V2 := l.foldr (· + ·) ⟨0, 0⟩

@[simp] theorem sumV_nil : sumV [] = ⟨0, 0⟩ := rfl

@[simp] theorem sumV_cons (v : V2) (l : List V2) :
    sumV (v :: l) = v + sumV l := rfl

/-- Rust `movement.rs`: `Movement { position, velocity }`. -/
structure Movement where
  position : V2
  velocity : V2
deriving DecidableEq, Repr

/-- Rust `movement.rs`: `Displacement { movement, velocity }`. -/
structure Displacement where
  movement : V2
  velocity : V2
deriving DecidableEq, Repr

/-- Rust `movement.rs` `Displacement::combine_velocity`:
`lateral_direction = vec2(velocity.y, -velocity.x)`;
`lateral_component = current_velocity.project_on(lateral_direction)`;
result `= velocity + lateral_component`. -/
def Displacement.combine_velocity (d : Displacement) (current_velocity : V2) : V2 :=
  let lateral_direction : V2 := ⟨d.velocity.y, -d.velocity.x⟩
  let lateral_component := current_velocity.project_on lateral_direction
  d.velocity + lateral_component

/-- Modelled from the spec: the spec's words for the velocity combination —
"the component of the carried entity's prior velocity that is tangent to
the contact surface", the contact normal being the push direction `v`:
the prior velocity `u` minus its component along `v`. -/
def specTangentialComponent (u v : V2) : V2 :=
  u - (u.dot v / v.dot v) • v

/-- Rust `left_solid_edge::LeftSolidEdge`: a directed segment, solid on its
left side (the struct only stores the two endpoints; see `collide.rs`
`Edge::start`/`Edge::end`). -/
structure LeftSolidEdge where
  start : V2
  stop : V2
deriving DecidableEq, Repr

/-- Rust `LeftSolidEdge::add_vector`: translate both endpoints. -/
def LeftSolidEdge.add_vector (e : LeftSolidEdge) (v : V2) : LeftSolidEdge :=
  ⟨e.start + v, e.stop + v⟩

/-- Direction vector of an edge. -/
def LeftSolidEdge.vector (e : LeftSolidEdge) : V2 := e.stop - e.start

/-- Rust `collide.rs` `channels::MAIN`. -/
def channels.MAIN : Nat := 1

/-- Rust `collide.rs` `channels::FLOOR`. -/
def channels.FLOOR : Nat := 2

/-- Rust `collide.rs` `Edge { left_solid_edge, channels }`. -/
structure Edge where
  left_solid_edge : LeftSolidEdge
  channels : Nat
deriving DecidableEq, Repr

/-- Rust `collide.rs` `Edge::new`: channel mask defaults to `MAIN`. -/
def Edge.new (start stop : V2) : Edge :=
  ⟨⟨start, stop⟩, channels.MAIN⟩

/-- Rust `collide.rs` `Edge::with_channels`. -/
def Edge.with_channels (e : Edge) (channels : Nat) : Edge :=
  ⟨e.left_solid_edge, channels⟩

/-- Modelled from the spec: `left_solid_edge::CollisionWithSlide` — the
narrow-phase result (`left_solid_edge.rs` is not under `src/`). Spec
section 4.3: it carries the scalar `t` ("distance along movement", the
ordering key of the Best-Of reducers) and the stationary edge it hit,
from which the caller derives the safe partial advance, the slide and
the remaining movement. -/
structure CollisionWithSlide where
  t : ℚ
  stationary_edge : LeftSolidEdge
deriving DecidableEq, Repr

/-- Modelled from the spec: `movement_to_collision = t·v`
(the safe partial advance, spec section 4.3). -/
def CollisionWithSlide.movement_to_collision (c : CollisionWithSlide) (v : V2) : V2 :=
  c.t • v

/-- Modelled from the spec: the slide — the movement redirected tangent
to the obstacle, i.e. `v` projected onto the stationary edge's direction
(spec section 4.3). -/
def CollisionWithSlide.slide (c : CollisionWithSlide) (v : V2) : V2 :=
  v.project_on c.stationary_edge.vector

/-- Modelled from the spec: `movement_following_collision` — the
remaining movement after subtracting the consumed partial advance
(spec section 4.3): `(1 - t)·v`. -/
def CollisionWithSlide.movement_following_collision (c : CollisionWithSlide) (v : V2) : V2 :=
  (1 - c.t) • v

/-- Modelled from the spec: the first-touch parameter of one vertex `p`
of the moving edge advanced by `t·v` against the stationary edge `e`
(spec section 4.3): parametric line intersection via 2D cross products,
`t ∈ [0,1]`, contact point within the edge (`s ∈ [0,1]`), approach from
the solid (left) side, and a degenerate/parallel cross product resolved
as no collision (the epsilon guard, exact in `ℚ`). -/
def vertexEdgeT (p : V2) (e : LeftSolidEdge) (v : V2) : Option ℚ :=
  let d := e.vector
  let den := v.cross d
  if den ≤ 0 then none
  else
    let w := e.start - p
    let t := w.cross d / den
    let s := w.cross v / den
    if 0 ≤ t ∧ t ≤ 1 ∧ 0 ≤ s ∧ s ≤ 1 then some t else none

/-- Minimum of a list of rationals. -/
def listMinQ : List ℚ → Option ℚ
  | [] => none
  | q :: rest =>
    match listMinQ rest with
    | none => some q
    | some m => some (min q m)

/-- Modelled from the spec:
`LeftSolidEdge::collide_with_stationary_edge` (`left_solid_edge.rs` is
not under `src/`). Spec section 4.3: the scalar `t ∈ [0,1]` such that
advancing every point of the moving edge by `t·v` makes it first touch
the stationary edge from the solid side — each vertex of the moving
edge is cast along `v` against the stationary edge, each vertex of the
stationary edge is cast along `-v` against the moving edge, and the
smallest parameter wins; no candidate means no collision. -/
def collideWithStationaryEdge (m s : LeftSolidEdge) (v : V2) :
    Option CollisionWithSlide :=
  let candidates :=
    [vertexEdgeT m.start s v, vertexEdgeT m.stop s v,
     vertexEdgeT s.start m (-v), vertexEdgeT s.stop m (-v)].filterMap id
  (listMinQ candidates).map (fun t => ⟨t, s⟩)

/-- Modelled from the spec: `shape.rs` is not under `src/`. The spec's
`Shape` is a closed variant set (axis-aligned rectangle, line segment)
whose only capability used by the claims is the `Collide` dispatch
"enumerate channel-tagged left-solid edges facing a direction" (edges in
shape-relative coordinates); the variant is represented by that dispatch
function directly. -/
structure ShapeM where
  edgesFacing : V2 → List Edge

/-- Rust `movement.rs`/`shape.rs` `ShapePosition { entity_id, shape, position }`. -/
structure ShapePosition where
  entity_id : Nat
  shape : ShapeM
  position : V2

/-- Rust `collide.rs` `Collide::for_each_movement_collision`: every solid
edge of the moving shape facing `movement`, against every solid edge of
the stationary shape facing `-movement`; pairs whose channel masks share
no bit are skipped; both edges are translated to their positions before
the narrow-phase test. Collected in iteration order. -/
def forEachMovementCollision (movingShape : ShapeM) (position : V2)
    (stationaryShape : ShapeM) (stationaryPosition : V2) (movement : V2) :
    List CollisionWithSlide :=
  (movingShape.edgesFacing movement).flatMap (fun moving_rel_edge =>
    (stationaryShape.edgesFacing (-movement)).filterMap (fun stationary_rel_edge =>
      if moving_rel_edge.channels &&& stationary_rel_edge.channels = 0 then none
      else
        collideWithStationaryEdge
          (moving_rel_edge.left_solid_edge.add_vector position)
          (stationary_rel_edge.left_solid_edge.add_vector stationaryPosition)
          movement))

/-- Rust `movement.rs` `Collision`: the stationary entity's id paired with
the narrow-phase result (spec section 3 data model). -/
structure Collision where
  stationary_entity_id : Nat
  left_solid_edge_collision : CollisionWithSlide
deriving DecidableEq, Repr

/-- Ordering key of a `Collision` for the Best-Of reducers: distance
along movement (spec section 3: "Ordered by distance-along-movement for
Best-Of reducers; ties are exact equality of that scalar"). -/
def Collision.key (c : Collision) : ℚ := c.left_solid_edge_collision.t

/-- Modelled from the spec: `best::BestMultiSet::insert_lt` (the `best`
crate is not under `src/`). Spec section 4.4, multi-best reducer:
a strictly smaller candidate discards the held set and starts fresh, a
tie with the current minimum accumulates, a strictly larger candidate is
ignored. The held set is a list whose elements all tie at the minimum. -/
def insertLt (best : List Collision) (c : Collision) : List Collision :=
  match best.head? with
  | none => [c]
  | some b =>
    if c.key < b.key then [c]
    else if c.key = b.key then best ++ [c]
    else best

/-- Modelled from the spec: `shape.rs` `ShapePosition::movement_collision_test`
(not under `src/`) — runs the pairwise collision enumeration of
`collide.rs` and inserts each narrow-phase result, tagged with the
stationary entity's id, into the multi-best set (spec sections 3, 4.4). -/
def movementCollisionTest (sp other : ShapePosition) (movement : V2)
    (best : List Collision) : List Collision :=
  (forEachMovementCollision sp.shape sp.position other.shape other.position
    movement).foldl (fun b cws => insertLt b ⟨other.entity_id, cws⟩) best

/-- Rust `movement.rs` `MovementContext::closest_collisions`: clear the set,
then for each candidate shape position yielded by the broad phase whose
entity id differs from the moving entity's, run the collision test into
the multi-best set. The broad-phase provider is modelled by the list of
`ShapePosition`s it yields for this query. -/
def closestCollisions (provider : List ShapePosition) (sp : ShapePosition)
    (movement : V2) : List Collision :=
  provider.foldl (fun best other =>
    if other.entity_id ≠ sp.entity_id then
      movementCollisionTest sp other movement best
    else best) []

/-- Rust `movement.rs` `MovementContext::for_each_collision`: per candidate
(skipping the moving entity itself), clear the set, run the collision
test, and hand the first drained collision (if any) to the callback
together with the candidate's entity id. The list of callback
invocations, in order. -/
def forEachCollision (provider : List ShapePosition) (sp : ShapePosition)
    (movement : V2) : List (Nat × Collision) :=
  provider.filterMap (fun other =>
    if other.entity_id ≠ sp.entity_id then
      (movementCollisionTest sp other movement []).head?.map
        (fun c => (other.entity_id, c))
    else none)

/-- Rust `movement.rs` `MovementEnv`, abstracted: `closest_collisions` is the
function `(position, movement) ↦` multi-best collision set that the
environment (broad phase + shapes bound in `MovementEnv`) realises, and
`max_bump` stands for `bump::max_bump` — Modelled from the spec:
`bump.rs` is not under `src/`; spec section 4.5 only says it computes,
across all tied-nearest collisions, an optional corrective "max bump"
vector, so it is kept as an arbitrary function of the multi-best set and
every theorem quantifying over it covers the actual implementation.
The concrete pipeline `closestCollisions` instantiates the first field. -/
structure MovementEnvA where
  closest_collisions : V2 → V2 → List Collision
  max_bump : List Collision → Option V2

/-- Rust `movement.rs` `MovementStateMachine` (the `u8` counter as `Nat`). -/
structure MovementStateMachine where
  movement : V2
  position : V2
  bump : Option V2
  velocity_correction : V2
  remaining : Nat

namespace MovementStateMachine

/-- Rust `MovementStateMachine::new`: `MAX_ITERATIONS = 16`. -/
def new (movement position : V2) : MovementStateMachine :=
  { movement, position, bump := none, velocity_correction := ⟨0, 0⟩,
    remaining := 16 }

/-- Rust `MovementStateMachine::to_movement`: the velocity reported on
termination is `position - original_position + velocity_correction`. -/
def to_movement (s : MovementStateMachine) (original_position : V2) : Movement :=
  { position := s.position,
    velocity := s.position - original_position + s.velocity_correction }

/-- Rust `MovementStateMachine::step`, returning the `Option<Movement>`
together with the state after the call (the Rust method mutates `self`):
exhausted budget terminates at the current position; a pending bump is
tested in isolation and either aborts (a collision along the bump) or is
committed as a position change and a velocity correction; otherwise the
closest collisions against the remaining movement either let the whole
remaining movement commit (success) or advance by the safe partial
movement and continue with the slide (no bump required) or with the
movement following the collision plus a stashed pending bump. -/
def step (env : MovementEnvA) (original_position : V2)
    (s : MovementStateMachine) : Option Movement × MovementStateMachine :=
  if s.remaining = 0 then (some (s.to_movement original_position), s)
  else
    match s.bump with
    | some bump =>
      match (env.closest_collisions s.position bump).head? with
      | some _ => (some (s.to_movement original_position), s)
      | none =>
        (none,
         { s with position := s.position + bump,
                  velocity_correction := s.velocity_correction - bump,
                  bump := none,
                  remaining := s.remaining - 1 })
    | none =>
      match (env.closest_collisions s.position s.movement).head? with
      | none =>
        (some (to_movement { s with position := s.position + s.movement }
          original_position),
         { s with position := s.position + s.movement })
      | some closest =>
        let position2 := s.position +
          closest.left_solid_edge_collision.movement_to_collision s.movement
        match env.max_bump (env.closest_collisions s.position s.movement) with
        | none =>
          (none,
           { s with position := position2,
                    movement :=
                      closest.left_solid_edge_collision.slide s.movement,
                    remaining := s.remaining - 1 })
        | some max_bump =>
          (none,
           { s with position := position2,
                    bump := some max_bump,
                    movement :=
                      closest.left_solid_edge_collision.movement_following_collision
                        s.movement,
                    remaining := s.remaining - 1 })

/-- The `loop { if let Some(movement) = state.step(..) { return movement } }`
of `position_after_allowed_movement`, with explicit fuel: `none` means
the fuel ran out before `step` returned. `runSteps_complete` below shows
fuel `remaining + 1` always suffices, so the fuelled loop is total like
the Rust loop. -/
def runSteps (env : MovementEnvA) (original_position : V2) :
    Nat → MovementStateMachine → Option Movement
  | 0, _ => none
  | fuel + 1, s =>
    match step env original_position s with
    | (some m, _) => some m
    | (none, s2) => runSteps env original_position fuel s2

/-- The bump vectors committed as position changes along the run, in
order (fuelled like `runSteps`): a step that does not return and whose
incoming state held a pending bump is exactly a step that committed that
bump (`step`'s bump branch either returns or commits). -/
def runBumps (env : MovementEnvA) (original_position : V2) :
    Nat → MovementStateMachine → List V2
  | 0, _ => []
  | fuel + 1, s =>
    match step env original_position s with
    | (some _, _) => []
    | (none, s2) =>
      (match s.bump with | some b => [b] | none => []) ++
        runBumps env original_position fuel s2

/-- Rust `movement.rs` `MovementContext::position_after_allowed_movement`:
build the state machine from the desired movement and start position and
run the loop to completion. Fuel 17 is exact: `new` starts the counter
at 16 and `step_some_or_decrements`/`runSteps_complete` prove every
`step` either returns or strictly decrements it, so the default branch
of `getD` is unreachable and this equals the source's unbounded loop. -/
def positionAfterAllowedMovement (env : MovementEnvA) (start_position : V2)
    (movement : V2) : Movement :=
  (runSteps env start_position 17 (new movement start_position)).getD
    (Movement.mk start_position movement)

end MovementStateMachine

/-- Rust `movement.rs` `BELOW_TEST_MOVEMENT = vec2(0., 1.)` — the fixed
straight-down support probe. -/
def BELOW_TEST_MOVEMENT : V2 := ⟨0, 1⟩

/-- Rust `movement.rs` `MovementContext::collisions_below`: the multi-best
collision set for the fixed probe movement `BELOW_TEST_MOVEMENT`. -/
def collisionsBelow (provider : List ShapePosition) (sp : ShapePosition) :
    List Collision :=
  closestCollisions provider sp BELOW_TEST_MOVEMENT

/-- Rust `movement.rs` `CollisionsBelow::can_jump`: `!self.0.is_empty()`. -/
def canJump (collisions_below : List Collision) : Bool :=
  !collisions_below.isEmpty

/-- Rust `Iterator::max_by` over `magnitude2` comparison: the reduction
keeps the accumulator only when strictly greater, so among equal maxima
the last element wins; `none` exactly on the empty list. -/
def maxByMagnitude2 : List V2 → Option V2
  | [] => none
  | v :: rest =>
    some (rest.foldl (fun acc u =>
      if acc.magnitude2 > u.magnitude2 then acc else u) v)

/-- Rust `movement.rs` `CollisionsBelow::max_velocity`: `None` on an empty
set; otherwise the velocities of the collided entities (skipping ids
whose lookup fails) reduced by `max_by` on `magnitude2`, defaulting to
`vec2(0., 0.)` when every lookup failed. -/
def maxVelocity (get_velocity : Nat → Option V2)
    (collisions_below : List Collision) : Option V2 :=
  if collisions_below.isEmpty then none
  else
    some ((maxByMagnitude2 (collisions_below.filterMap
      (fun c => get_velocity c.stationary_entity_id))).getD ⟨0, 0⟩)

/-- Rust `game.rs` `EntityCommon { position, shape, colour }` (the `[f32; 3]`
colour as an exact triple; it is never read by the physics). -/
structure EntityCommon where
  position : V2
  shape : ShapeM
  colour : ℚ × ℚ × ℚ

/-- Rust `game.rs` `AllShapePositions::for_each`: for every entity id the
spatial index yields (modelled by the id list of the intersection
query), look the id up in the `common` store and call back with its
shape position; the `.unwrap()` on a missing id is a panic, modelled as
`none` — no list of emitted shape positions exists for that run. -/
def allShapePositionsForEach (store : Nat → Option EntityCommon) :
    List Nat → Option (List ShapePosition)
  | [] => some []
  | id :: rest =>
    match store id with
    | none => none
    | some common =>
      (allShapePositionsForEach store rest).map
        (fun l => ShapePosition.mk id common.shape common.position :: l)

/-- Rust `game.rs` `DynamicPhysicsShapePositions::for_each`: like
`allShapePositionsForEach` but ids not in the `dynamic_physics` set are
filtered out before the store lookup. -/
def dynamicPhysicsShapePositionsForEach (dynamic_physics : Nat → Bool)
    (store : Nat → Option EntityCommon) :
    List Nat → Option (List ShapePosition)
  | [] => some []
  | id :: rest =>
    if dynamic_physics id then
      match store id with
      | none => none
      | some common =>
        (dynamicPhysicsShapePositionsForEach dynamic_physics store rest).map
          (fun l => ShapePosition.mk id common.shape common.position :: l)
    else dynamicPhysicsShapePositionsForEach dynamic_physics store rest

/-- IEEE-style scalar with special values, for the claims about NaN:
a finite value (exact ℚ payload; rounding and signed zero are not
modelled — no claim here depends on them), the two infinities, and NaN. -/
inductive Fl where
  | fin (q : ℚ)
  | inf
  | ninf
  | nan
deriving DecidableEq, Repr

namespace Fl

/-- IEEE addition on `Fl`: NaN propagates, opposite infinities give NaN. -/
def add : Fl → Fl → Fl
  | fin a, fin b => fin (a + b)
  | fin _, inf => inf
  | fin _, ninf => ninf
  | inf, fin _ => inf
  | ninf, fin _ => ninf
  | inf, inf => inf
  | ninf, ninf => ninf
  | inf, ninf => nan
  | ninf, inf => nan
  | _, _ => nan

/-- IEEE negation on `Fl`. -/
def neg : Fl → Fl
  | fin a => fin (-a)
  | inf => ninf
  | ninf => inf
  | nan => nan

/-- IEEE subtraction on `Fl`. -/
def sub (a b : Fl) : Fl := add a (neg b)

/-- IEEE multiplication on `Fl`: NaN propagates, zero times an infinity
is NaN. -/
def mul : Fl → Fl → Fl
  | fin a, fin b => fin (a * b)
  | fin a, inf => if a = 0 then nan else if 0 < a then inf else ninf
  | fin a, ninf => if a = 0 then nan else if 0 < a then ninf else inf
  | inf, fin b => if b = 0 then nan else if 0 < b then inf else ninf
  | ninf, fin b => if b = 0 then nan else if 0 < b then ninf else inf
  | inf, inf => inf
  | ninf, ninf => inf
  | inf, ninf => ninf
  | ninf, inf => ninf
  | _, _ => nan

/-- IEEE division on `Fl` (zero is positive zero — the only zeros the
claims reach arise as `+0`): `0/0` is NaN, a nonzero finite value over
zero is a signed infinity, a finite value over an infinity is zero,
infinity over infinity is NaN. -/
def div : Fl → Fl → Fl
  | fin a, fin b =>
    if b = 0 then (if a = 0 then nan else if 0 < a then inf else ninf)
    else fin (a / b)
  | fin _, inf => fin 0
  | fin _, ninf => fin 0
  | inf, fin b => if 0 ≤ b then inf else ninf
  | ninf, fin b => if 0 ≤ b then ninf else inf
  | inf, inf => nan
  | inf, ninf => nan
  | ninf, inf => nan
  | ninf, ninf => nan
  | _, _ => nan

/-- IEEE square root on `Fl`: NaN on negative arguments, `Rat.sqrt` on
the exact payload (exact precisely at rational squares — every value
this development takes a square root of is `0` or `1`, where it agrees
with the correctly rounded IEEE result). -/
def sqrtF : Fl → Fl
  | fin q => if q < 0 then nan else fin (Rat.sqrt q)
  | inf => inf
  | ninf => nan
  | nan => nan

end Fl

/-- Rust `cgmath::Vector2<f32>` with the special-value scalar model. -/
structure FlV2 where
  x : Fl
  y : Fl
deriving DecidableEq, Repr

/-- Componentwise vector addition. -/
def FlV2.add (a b : FlV2) : FlV2 := ⟨Fl.add a.x b.x, Fl.add a.y b.y⟩

/-- Componentwise vector subtraction. -/
def FlV2.sub (a b : FlV2) : FlV2 := ⟨Fl.sub a.x b.x, Fl.sub a.y b.y⟩

/-- Componentwise vector negation. -/
def FlV2.negV (a : FlV2) : FlV2 := ⟨Fl.neg a.x, Fl.neg a.y⟩

/-- Rust `cgmath` vector-times-scalar. -/
def FlV2.scale (a : FlV2) (k : Fl) : FlV2 := ⟨Fl.mul a.x k, Fl.mul a.y k⟩

/-- Rust `cgmath` dot product. -/
def FlV2.dotF (a b : FlV2) : Fl :=
  Fl.add (Fl.mul a.x b.x) (Fl.mul a.y b.y)

/-- Rust `cgmath::InnerSpace::magnitude2`. -/
def FlV2.magnitude2F (a : FlV2) : Fl := a.dotF a

/-- Rust `cgmath::InnerSpace::magnitude = sqrt(magnitude2)`. -/
def FlV2.magnitudeF (a : FlV2) : Fl := Fl.sqrtF a.magnitude2F

/-- Rust `cgmath::InnerSpace::normalize`:
`self * (1 / self.magnitude())` — on the zero vector the magnitude is
zero, `1/0 = +∞` and `0·∞ = NaN`, exactly the IEEE behaviour the spec
warns about. -/
def FlV2.normalizeF (a : FlV2) : FlV2 :=
  a.scale (Fl.div (Fl.fin 1) a.magnitudeF)

/-- Rust `cgmath::InnerSpace::project_on` over the special-value model. -/
def FlV2.projectOnF (self other : FlV2) : FlV2 :=
  other.scale (Fl.div (self.dotF other) other.magnitude2F)

/-- Rust `movement.rs` `Displacement::combine_velocity` translated over the
special-value scalar model (same source lines as
`Displacement.combine_velocity`; this version keeps the `f64` NaN
behaviour that the exact `ℚ` model erases). -/
def combineVelocityFl (velocity current_velocity : FlV2) : FlV2 :=
  let lateral_direction : FlV2 := ⟨velocity.y, Fl.neg velocity.x⟩
  let lateral_component := current_velocity.projectOnF lateral_direction
  velocity.add lateral_component

/-- Rust `line_segment.rs` `SolidSide`. -/
inductive SolidSide where
  | left
  | both
deriving DecidableEq, Repr

/-- Rust `line_segment.rs` `LineSegment { start, end, solid_side }` (`f32`
coordinates in the special-value model). -/
structure LineSegment where
  start : FlV2
  stop : FlV2
  solid_side : SolidSide
deriving DecidableEq, Repr

/-- Rust `left_solid_edge::LeftSolidEdge` over the `f32` special-value model
(only the two endpoints, as consumed by `line_segment.rs`). -/
structure LeftSolidEdgeF where
  start : FlV2
  stop : FlV2
deriving DecidableEq, Repr

namespace LineSegment

/-- Rust `LineSegment::new_both_solid`. -/
def new_both_solid (start stop : FlV2) : LineSegment :=
  ⟨start, stop, SolidSide.both⟩

/-- Rust `LineSegment::new_left_solid`. -/
def new_left_solid (start stop : FlV2) : LineSegment :=
  ⟨start, stop, SolidSide.left⟩

/-- Rust `LineSegment::add_vector`. -/
def add_vector (s : LineSegment) (vector : FlV2) : LineSegment :=
  ⟨s.start.add vector, s.stop.add vector, s.solid_side⟩

/-- Rust `LineSegment::vector`: `end - start`. -/
def vector (s : LineSegment) : FlV2 := s.stop.sub s.start

/-- Rust `LineSegment::left_solid_edge`: `LeftSolidEdge::new(start, end)`. -/
def left_solid_edge (s : LineSegment) : LeftSolidEdgeF := ⟨s.start, s.stop⟩

/-- Rust `LineSegment::left_solid_edge_flipped`: `LeftSolidEdge::new(end, start)`. -/
def left_solid_edge_flipped (s : LineSegment) : LeftSolidEdgeF := ⟨s.stop, s.start⟩

/-- Rust `line_segment.rs` `for_each_left_solid_edge_facing`: the unit left
normal of the segment's direction, then — unconditionally, with
`solid_side` never consulted — one flipped edge offset to the left and
one unflipped edge offset to the right, in that order. -/
def for_each_left_solid_edge_facing (s : LineSegment) (direction : FlV2) :
    List LeftSolidEdgeF :=
  let vector := s.vector
  let left := (FlV2.mk (Fl.neg vector.y) vector.x).normalizeF
  let _ := direction
  [(s.add_vector left).left_solid_edge_flipped,
   (s.add_vector left.negV).left_solid_edge]

end LineSegment

theorem V2.mk_add_mk (a b c d : ℚ) : (⟨a, b⟩ + ⟨c, d⟩ : V2) = ⟨a + c, b + d⟩ := rfl

theorem V2.mk_sub_mk (a b c d : ℚ) : (⟨a, b⟩ - ⟨c, d⟩ : V2) = ⟨a - c, b - d⟩ := rfl

theorem V2.neg_mk (a b : ℚ) : (-⟨a, b⟩ : V2) = ⟨-a, -b⟩ := rfl

theorem V2.add_zero' (a : V2) : a + ⟨0, 0⟩ = a := by
  rw [V2.ext_iff']; constructor <;> simp

theorem V2.add_sub_add_comm' (a b c : V2) : a + b - c = a - c + b := by
  rw [V2.ext_iff']; constructor <;> simp <;> ring

theorem V2.sub_self' (a : V2) : a - a = ⟨0, 0⟩ := by
  rw [V2.ext_iff']; constructor <;> simp

namespace MovementStateMachine

theorem runSteps_succ (env : MovementEnvA) (orig : V2) (fuel : Nat)
    (s : MovementStateMachine) :
    runSteps env orig (fuel + 1) s =
      match step env orig s with
      | (some m, _) => some m
      | (none, s2) => runSteps env orig fuel s2 := rfl

theorem runBumps_succ (env : MovementEnvA) (orig : V2) (fuel : Nat)
    (s : MovementStateMachine) :
    runBumps env orig (fuel + 1) s =
      match step env orig s with
      | (some _, _) => []
      | (none, s2) =>
        (match s.bump with | some b => [b] | none => []) ++
          runBumps env orig fuel s2 := rfl

/-- Each call to `step` either returns a `Movement` or strictly
decrements the `remaining` counter. -/
theorem step_some_or_decrements (env : MovementEnvA) (orig : V2)
    (s : MovementStateMachine) :
    (step env orig s).1.isSome = true ∨
      (step env orig s).2.remaining < s.remaining := by
  unfold step
  by_cases h : s.remaining = 0
  · simp [h]
  · have hlt : s.remaining - 1 < s.remaining :=
      Nat.sub_lt (Nat.pos_of_ne_zero h) Nat.one_pos
    rw [if_neg h]
    cases hb : s.bump with
    | some b =>
      simp only [hb]
      cases hc : (env.closest_collisions s.position b).head? <;>
        simp [hc, hlt]
    | none =>
      simp only [hb]
      cases hc : (env.closest_collisions s.position s.movement).head? with
      | none => simp [hc]
      | some c =>
        simp only [hc]
        cases hm :
            env.max_bump (env.closest_collisions s.position s.movement) <;>
          simp [hm, hlt]

/-- A `step` that does not return strictly decrements `remaining`. -/
theorem step_none_decrements (env : MovementEnvA) (orig : V2)
    (s s2 : MovementStateMachine) (m : Option Movement)
    (hstep : step env orig s = (m, s2)) (hm : m = none) :
    s2.remaining < s.remaining := by
  rcases step_some_or_decrements env orig s with h | h
  · rw [hstep, hm] at h; simp at h
  · rw [hstep] at h; exact h

/-- Any `Movement` returned by `step` reports as velocity the new
position minus the original position plus the incoming velocity
correction. -/
theorem step_some_velocity (env : MovementEnvA) (orig : V2)
    (s s2 : MovementStateMachine) (m : Movement)
    (hstep : step env orig s = (some m, s2)) :
    m.velocity = m.position - orig + s.velocity_correction := by
  unfold step at hstep
  by_cases h : s.remaining = 0
  · rw [if_pos h] at hstep
    have hm : m = s.to_movement orig := by
      have := congrArg Prod.fst hstep
      simp at this
      exact this.symm
    rw [hm]
    rfl
  · rw [if_neg h] at hstep
    cases hb : s.bump with
    | some b =>
      simp only [hb] at hstep
      cases hc : (env.closest_collisions s.position b).head? with
      | some c =>
        simp only [hc] at hstep
        have hm : m = s.to_movement orig := by
          have := congrArg Prod.fst hstep
          simp at this
          exact this.symm
        rw [hm]
        rfl
      | none => simp only [hc] at hstep; simp at hstep
    | none =>
      simp only [hb] at hstep
      cases hc : (env.closest_collisions s.position s.movement).head? with
      | none =>
        simp only [hc] at hstep
        have hm :
            m = to_movement { s with position := s.position + s.movement } orig := by
          have := congrArg Prod.fst hstep
          simp at this
          exact this.symm
        rw [hm]
        rfl
      | some c =>
        simp only [hc] at hstep
        cases hm :
            env.max_bump (env.closest_collisions s.position s.movement) <;>
          simp only [hm] at hstep <;> simp at hstep

/-- A `step` that does not return leaves the velocity correction
unchanged unless it commits the pending bump, in which case it subtracts
exactly that bump. -/
theorem step_none_velocity_correction (env : MovementEnvA) (orig : V2)
    (s s2 : MovementStateMachine)
    (hstep : step env orig s = (none, s2)) :
    s2.velocity_correction =
      s.velocity_correction -
        (match s.bump with | some b => b | none => ⟨0, 0⟩) := by
  unfold step at hstep
  by_cases h : s.remaining = 0
  · rw [if_pos h] at hstep; simp at hstep
  · rw [if_neg h] at hstep
    cases hb : s.bump with
    | some b =>
      simp only [hb] at hstep
      cases hc : (env.closest_collisions s.position b).head? with
      | some c => simp only [hc] at hstep; simp at hstep
      | none =>
        simp only [hc] at hstep
        have h2 := congrArg Prod.snd hstep
        simp at h2
        rw [← h2]
    | none =>
      simp only [hb] at hstep
      cases hc : (env.closest_collisions s.position s.movement).head? with
      | none => simp only [hc] at hstep; simp at hstep
      | some c =>
        simp only [hc] at hstep
        cases hm :
            env.max_bump (env.closest_collisions s.position s.movement) <;>
          simp only [hm] at hstep <;>
          (have h2 := congrArg Prod.snd hstep) <;> simp at h2 <;>
          rw [← h2] <;> exact (V2.ext_iff'.2 (by simp)).symm

end MovementStateMachine

namespace MovementStateMachine

/-- Fuel `remaining + 1` always suffices: the fuelled loop returns. -/
theorem runSteps_complete (env : MovementEnvA) (orig : V2) :
    ∀ (fuel : Nat) (s : MovementStateMachine), s.remaining < fuel →
      (runSteps env orig fuel s).isSome = true := by
  intro fuel
  induction fuel with
  | zero => intro s hs; omega
  | succ n ih =>
    intro s hs
    rw [runSteps_succ]
    cases hstep : step env orig s with
    | mk m s2 =>
      cases m with
      | some mv => simp
      | none =>
        simp only
        exact ih s2 (by
          have := step_none_decrements env orig s s2 none hstep rfl
          omega)

/-- The fuelled run with any sufficient fuel returns exactly the value
`positionAfterAllowedMovement` extracts. -/
theorem runSteps_17_eq (env : MovementEnvA) (start_position movement : V2) :
    runSteps env start_position 17 (new movement start_position) =
      some (positionAfterAllowedMovement env start_position movement) := by
  have h : (runSteps env start_position 17 (new movement start_position)).isSome :=
    runSteps_complete env start_position 17 (new movement start_position)
      (by simp [new])
  unfold positionAfterAllowedMovement
  cases hr : runSteps env start_position 17 (new movement start_position) with
  | none => rw [hr] at h; simp at h
  | some m => simp

/-- The velocity invariant of a complete fuelled run: the reported
velocity is the final position minus the original position, plus the
incoming velocity correction, minus the sum of the bumps committed as
position changes during the run. -/
theorem runSteps_velocity_invariant (env : MovementEnvA) (orig : V2) :
    ∀ (fuel : Nat) (s : MovementStateMachine) (m : Movement),
      runSteps env orig fuel s = some m →
      m.velocity = m.position - orig + s.velocity_correction -
        sumV (runBumps env orig fuel s) := by
  intro fuel
  induction fuel with
  | zero => intro s m h; simp [runSteps] at h
  | succ n ih =>
    intro s m h
    rw [runSteps_succ] at h
    rw [runBumps_succ]
    cases hstep : step env orig s with
    | mk mo s2 =>
      cases mo with
      | some mv =>
        rw [hstep] at h
        simp only at h
        have hm : mv = m := by simpa using h
        simp only
        rw [← hm]
        rw [step_some_velocity env orig s s2 mv hstep]
        rw [V2.ext_iff']
        constructor <;> simp
      | none =>
        rw [hstep] at h
        simp only at h
        simp only
        have hrec := ih s2 m h
        have hvc := step_none_velocity_correction env orig s s2 hstep
        rw [hrec, hvc]
        cases hb : s.bump with
        | some b =>
          simp only [hb]
          rw [V2.ext_iff']
          constructor <;> simp <;> ring
        | none =>
          simp only [hb]
          rw [V2.ext_iff']
          constructor <;> simp

end MovementStateMachine

/-- If the environment reports no collision for the very first query —
the one from the start position against the full movement — the loop
returns on its first step with the whole movement committed. -/
theorem positionAfterAllowedMovement_first_step_clear (env : MovementEnvA)
    (start_position movement : V2)
    (h : env.closest_collisions start_position movement = []) :
    MovementStateMachine.positionAfterAllowedMovement env start_position
        movement =
      ⟨start_position + movement, movement⟩ := by
  have h17 : (17 : Nat) = 16 + 1 := rfl
  have hstep :
      MovementStateMachine.step env start_position
          (MovementStateMachine.new movement start_position) =
        (some ⟨start_position + movement,
          start_position + movement - start_position + ⟨0, 0⟩⟩,
         { MovementStateMachine.new movement start_position with
             position := start_position + movement }) := by
    unfold MovementStateMachine.step
    simp [MovementStateMachine.new, h, MovementStateMachine.to_movement]
  have hrun :
      MovementStateMachine.runSteps env start_position 17
          (MovementStateMachine.new movement start_position) =
        some ⟨start_position + movement,
          start_position + movement - start_position + ⟨0, 0⟩⟩ := by
    rw [h17, MovementStateMachine.runSteps_succ, hstep]
  have := MovementStateMachine.runSteps_17_eq env start_position movement
  rw [hrun] at this
  have hout := Option.some.inj this
  rw [← hout]
  have hv : start_position + movement - start_position + ⟨0, 0⟩ = movement := by
    rw [V2.ext_iff']
    constructor <;> simp
  rw [hv]

/-- C1: for every starting position and movement vector, if the
environment reports no collision against the remaining movement (no
obstacles present), `position_after_allowed_movement` returns a final
position equal to `start_position + movement` exactly, and the returned
velocity equals that same movement vector. -/
theorem C1_no_obstacles_full_movement (env : MovementEnvA)
    (start_position movement : V2)
    (h : ∀ p m, env.closest_collisions p m = []) :
    MovementStateMachine.positionAfterAllowedMovement env start_position
        movement =
      ⟨start_position + movement, movement⟩ :=
  positionAfterAllowedMovement_first_step_clear env start_position movement
    (h start_position movement)

/-- Witness for C1 at a concrete environment with no obstacles:
start `(1,2)`, movement `(3,4)` resolve to position `(4,6)` and
velocity `(3,4)`. -/
theorem C1_no_obstacles_full_movement_witness :
    (∀ p m, (MovementEnvA.mk (fun _ _ => []) (fun _ => none)).closest_collisions
        p m = []) ∧
      MovementStateMachine.positionAfterAllowedMovement
          (MovementEnvA.mk (fun _ _ => []) (fun _ => none)) ⟨1, 2⟩ ⟨3, 4⟩ =
        ⟨⟨1 + 3, 2 + 4⟩, ⟨3, 4⟩⟩ :=
  ⟨fun _ _ => rfl,
   C1_no_obstacles_full_movement
     (MovementEnvA.mk (fun _ _ => []) (fun _ => none)) ⟨1, 2⟩ ⟨3, 4⟩
     (fun _ _ => rfl)⟩

/-- C2: the movement-resolution loop terminates on every input: each
call to `MovementStateMachine::step` either returns a `Movement` or
strictly decrements the remaining counter, the counter starts at 16, and
`position_after_allowed_movement` performs at most 17 steps and always
returns, regardless of the collision environment. -/
theorem C2_loop_terminates :
    (∀ (env : MovementEnvA) (orig : V2) (s : MovementStateMachine),
        (MovementStateMachine.step env orig s).1.isSome = true ∨
          (MovementStateMachine.step env orig s).2.remaining < s.remaining) ∧
      (∀ movement position : V2,
        (MovementStateMachine.new movement position).remaining = 16) ∧
      (∀ (env : MovementEnvA) (start_position movement : V2),
        MovementStateMachine.runSteps env start_position 17
            (MovementStateMachine.new movement start_position) =
          some (MovementStateMachine.positionAfterAllowedMovement env
            start_position movement)) :=
  ⟨MovementStateMachine.step_some_or_decrements,
   fun _ _ => rfl,
   MovementStateMachine.runSteps_17_eq⟩

/-- C3: whenever the state machine terminates — full success, blocked
bump, or budget exhaustion — the returned velocity equals the net
realized displacement: final position minus the original starting
position, corrected by subtracting every bump vector that was committed
as a position change during the run. -/
theorem C3_velocity_is_net_displacement (env : MovementEnvA)
    (start_position movement : V2) :
    (MovementStateMachine.positionAfterAllowedMovement env start_position
        movement).velocity =
      (MovementStateMachine.positionAfterAllowedMovement env start_position
          movement).position - start_position -
        sumV (MovementStateMachine.runBumps env start_position 17
          (MovementStateMachine.new movement start_position)) := by
  have h := MovementStateMachine.runSteps_velocity_invariant env
    start_position 17 (MovementStateMachine.new movement start_position)
    (MovementStateMachine.positionAfterAllowedMovement env start_position
      movement)
    (MovementStateMachine.runSteps_17_eq env start_position movement)
  rw [h]
  rw [V2.ext_iff']
  constructor <;> simp [MovementStateMachine.new]

/-- C4: for every displacement with nonzero velocity `v` and every
carried-entity prior velocity `u`, `combine_velocity` returns `v` plus
the component of `u` tangent to the contact surface (the component of
`u` orthogonal to the push direction `v`, per the spec's reading of
"tangent": `specTangentialComponent`); in particular, for a platform
displacement velocity of `(2,0)` and an entity prior velocity of
`(0,0)`, the combined velocity is exactly `(2,0)`. -/
theorem C4_combine_velocity_tangential (d : Displacement) (u : V2)
    (h : d.velocity ≠ ⟨0, 0⟩) :
    d.combine_velocity u = d.velocity + specTangentialComponent u d.velocity ∧
      ∀ m : V2, Displacement.combine_velocity ⟨m, ⟨2, 0⟩⟩ ⟨0, 0⟩ = ⟨2, 0⟩ := by
  constructor
  · have hs : d.velocity.x ^ 2 + d.velocity.y ^ 2 ≠ 0 := by
      intro hsum
      apply h
      have hx : d.velocity.x ^ 2 = 0 := by
        nlinarith [sq_nonneg d.velocity.x, sq_nonneg d.velocity.y]
      have hy : d.velocity.y ^ 2 = 0 := by
        nlinarith [sq_nonneg d.velocity.x, sq_nonneg d.velocity.y]
      rw [V2.ext_iff']
      exact ⟨pow_eq_zero_iff (by norm_num) |>.1 hx,
        pow_eq_zero_iff (by norm_num) |>.1 hy⟩
    have hs2 : d.velocity.y ^ 2 + d.velocity.x ^ 2 ≠ 0 := by
      intro hsum; exact hs (by linarith)
    unfold Displacement.combine_velocity specTangentialComponent V2.project_on
      V2.magnitude2 V2.dot
    rw [V2.ext_iff']
    constructor
    · simp only [V2.add_x, V2.sub_x, V2.smul_x, V2.neg_x, V2.neg_y]
      field_simp
      linear_combination u.x * mul_inv_cancel₀ hs2
    · simp only [V2.add_y, V2.sub_y, V2.smul_y, V2.neg_x, V2.neg_y]
      field_simp
      linear_combination u.y * mul_inv_cancel₀ hs2
  · intro m
    unfold Displacement.combine_velocity V2.project_on V2.magnitude2 V2.dot
    rw [V2.ext_iff']
    constructor <;> norm_num

/-- Witness for C4: the platform velocity `(2,0)` is nonzero and
carrying a prior velocity `(1,1)` decomposes as claimed. -/
theorem C4_combine_velocity_tangential_witness :
    (Displacement.mk ⟨0, 0⟩ ⟨2, 0⟩).velocity ≠ ⟨0, 0⟩ ∧
      ((Displacement.mk ⟨0, 0⟩ ⟨2, 0⟩).combine_velocity ⟨1, 1⟩ =
          (Displacement.mk ⟨0, 0⟩ ⟨2, 0⟩).velocity +
            specTangentialComponent ⟨1, 1⟩
              (Displacement.mk ⟨0, 0⟩ ⟨2, 0⟩).velocity ∧
        ∀ m : V2, Displacement.combine_velocity ⟨m, ⟨2, 0⟩⟩ ⟨0, 0⟩ = ⟨2, 0⟩) :=
  ⟨by simp [V2.ext_iff'],
   C4_combine_velocity_tangential (Displacement.mk ⟨0, 0⟩ ⟨2, 0⟩) ⟨1, 1⟩
     (by simp [V2.ext_iff'])⟩

theorem ratSqrt_one : Rat.sqrt 1 = 1 := by norm_num [Rat.sqrt]

theorem ratSqrt_zero : Rat.sqrt 0 = 0 := by norm_num [Rat.sqrt]

/-- C5: evaluation of the code at a left-solid segment. The claim says a
segment built with `new_left_solid` emits exactly one winding, but
`for_each_left_solid_edge_facing` never consults `solid_side` (the field
is dead) and emits two edges of opposite winding — offset to either side
by the unit left normal — for every segment: for the left-solid unit
segment `(0,0)-(1,0)` probed with direction `(0,1)` the code emits the
flipped edge `(1,1)-(0,1)` and the unflipped edge `(0,-1)-(1,-1)`,
a list of length 2, not 1. -/
theorem C5_left_solid_segment_emits_two_windings :
    LineSegment.for_each_left_solid_edge_facing
        (LineSegment.new_left_solid ⟨Fl.fin 0, Fl.fin 0⟩ ⟨Fl.fin 1, Fl.fin 0⟩)
        ⟨Fl.fin 0, Fl.fin 1⟩ =
      [⟨⟨Fl.fin 1, Fl.fin 1⟩, ⟨Fl.fin 0, Fl.fin 1⟩⟩,
       ⟨⟨Fl.fin 0, Fl.fin (-1)⟩, ⟨Fl.fin 1, Fl.fin (-1)⟩⟩] ∧
      (LineSegment.for_each_left_solid_edge_facing
          (LineSegment.new_left_solid ⟨Fl.fin 0, Fl.fin 0⟩ ⟨Fl.fin 1, Fl.fin 0⟩)
          ⟨Fl.fin 0, Fl.fin 1⟩).length = 2 := by
  constructor <;>
    norm_num [LineSegment.for_each_left_solid_edge_facing,
      LineSegment.new_left_solid, LineSegment.vector, LineSegment.add_vector,
      LineSegment.left_solid_edge, LineSegment.left_solid_edge_flipped,
      FlV2.normalizeF, FlV2.magnitudeF, FlV2.magnitude2F, FlV2.dotF,
      FlV2.scale, FlV2.add, FlV2.sub, FlV2.negV, Fl.add, Fl.mul, Fl.neg,
      Fl.sub, Fl.div, Fl.sqrtF, ratSqrt_one]

/-- C8: evaluation of the code at zero-length vectors. The claim says
zero-length vectors never propagate NaN, but `combine_velocity` on a
displacement whose velocity is `(0,0)` computes
`project_on` onto the zero lateral direction — a `0/0` — and returns
`(NaN, NaN)` even for the finite prior velocity `(1,0)`; and
`for_each_left_solid_edge_facing` on a degenerate segment whose start
equals its end normalizes the zero vector (`1/0 = +inf`, `0·inf = NaN`)
and emits edges whose coordinates are all NaN. -/
theorem C8_zero_length_vectors_produce_nan :
    combineVelocityFl ⟨Fl.fin 0, Fl.fin 0⟩ ⟨Fl.fin 1, Fl.fin 0⟩ =
        ⟨Fl.nan, Fl.nan⟩ ∧
      LineSegment.for_each_left_solid_edge_facing
          (LineSegment.new_both_solid ⟨Fl.fin 0, Fl.fin 0⟩ ⟨Fl.fin 0, Fl.fin 0⟩)
          ⟨Fl.fin 0, Fl.fin 1⟩ =
        [⟨⟨Fl.nan, Fl.nan⟩, ⟨Fl.nan, Fl.nan⟩⟩,
         ⟨⟨Fl.nan, Fl.nan⟩, ⟨Fl.nan, Fl.nan⟩⟩] := by
  constructor
  · norm_num [combineVelocityFl, FlV2.projectOnF, FlV2.magnitude2F, FlV2.dotF,
      FlV2.scale, FlV2.add, Fl.add, Fl.mul, Fl.neg, Fl.div]
  · norm_num [LineSegment.for_each_left_solid_edge_facing,
      LineSegment.new_both_solid, LineSegment.vector, LineSegment.add_vector,
      LineSegment.left_solid_edge, LineSegment.left_solid_edge_flipped,
      FlV2.normalizeF, FlV2.magnitudeF, FlV2.magnitude2F, FlV2.dotF,
      FlV2.scale, FlV2.add, FlV2.sub, FlV2.negV, Fl.add, Fl.mul, Fl.neg,
      Fl.sub, Fl.div, Fl.sqrtF, ratSqrt_zero]

/-- With the zero movement vector every vertex cast is rejected by the
degenerate-cross-product guard. -/
theorem vertexEdgeT_zero_movement (p : V2) (e : LeftSolidEdge) :
    vertexEdgeT p e ⟨0, 0⟩ = none := by
  unfold vertexEdgeT V2.cross
  norm_num

/-- With the zero movement vector the narrow phase reports no collision
for any pair of edges. -/
theorem collideWithStationaryEdge_zero_movement (m s : LeftSolidEdge) :
    collideWithStationaryEdge m s ⟨0, 0⟩ = none := by
  have hneg : (-(⟨0, 0⟩ : V2)) = ⟨0, 0⟩ := by
    rw [V2.ext_iff']; norm_num
  unfold collideWithStationaryEdge
  simp [vertexEdgeT_zero_movement, hneg, listMinQ]

/-- With the zero movement vector the pairwise enumeration of
`collide.rs` is empty for any pair of shapes. -/
theorem forEachMovementCollision_zero_movement (a : ShapeM) (p : V2)
    (b : ShapeM) (q : V2) :
    forEachMovementCollision a p b q ⟨0, 0⟩ = [] := by
  unfold forEachMovementCollision
  simp [collideWithStationaryEdge_zero_movement]

/-- With the zero movement vector `closest_collisions` is empty for any
broad-phase candidate list, even with obstacles in contact at distance
zero. -/
theorem closestCollisions_zero_movement (provider : List ShapePosition)
    (sp : ShapePosition) :
    closestCollisions provider sp ⟨0, 0⟩ = [] := by
  unfold closestCollisions
  have hfold : ∀ (l : List ShapePosition),
      l.foldl (fun best other =>
        if other.entity_id ≠ sp.entity_id then
          movementCollisionTest sp other ⟨0, 0⟩ best
        else best) [] = [] := by
    intro l
    induction l with
    | nil => rfl
    | cons hd tl ih =>
      simp only [List.foldl]
      by_cases h : hd.entity_id ≠ sp.entity_id
      · rw [if_pos h]
        have : movementCollisionTest sp hd ⟨0, 0⟩ [] = [] := by
          unfold movementCollisionTest
          rw [forEachMovementCollision_zero_movement]
          rfl
        rw [this]
        exact ih
      · rw [if_neg h]
        exact ih
  exact hfold provider

/-- C7: for every starting position and every environment — any
broad-phase candidate list, including obstacles in contact at distance
zero, and any max-bump function — calling
`position_after_allowed_movement` with the zero movement vector returns
the starting position unchanged and a returned velocity of `(0,0)`. -/
theorem C7_zero_movement_is_identity (provider : List ShapePosition)
    (sp : ShapePosition) (mb : List Collision → Option V2) :
    MovementStateMachine.positionAfterAllowedMovement
        (MovementEnvA.mk
          (fun pos mov =>
            closestCollisions provider ⟨sp.entity_id, sp.shape, pos⟩ mov)
          mb)
        sp.position ⟨0, 0⟩ =
      ⟨sp.position, ⟨0, 0⟩⟩ := by
  have h := positionAfterAllowedMovement_first_step_clear
    (MovementEnvA.mk
      (fun pos mov =>
        closestCollisions provider ⟨sp.entity_id, sp.shape, pos⟩ mov)
      mb)
    sp.position ⟨0, 0⟩
    (closestCollisions_zero_movement provider ⟨sp.entity_id, sp.shape, sp.position⟩)
  rw [h, V2.add_zero']

/-- The `max_by` fold returns an element of the candidate prefix list. -/
theorem maxByFold_mem (l : List V2) (a : V2) :
    l.foldl (fun acc u =>
      if acc.magnitude2 > u.magnitude2 then acc else u) a ∈ a :: l := by
  induction l generalizing a with
  | nil => simp [List.foldl]
  | cons hd tl ih =>
    simp only [List.foldl]
    by_cases hc : a.magnitude2 > hd.magnitude2
    · rw [if_pos hc]
      rcases List.mem_cons.1 (ih a) with h | h
      · rw [h]; exact List.mem_cons_self a (hd :: tl)
      · exact List.mem_cons_of_mem a (List.mem_cons_of_mem hd h)
    · rw [if_neg hc]
      rcases List.mem_cons.1 (ih hd) with h | h
      · rw [h]; exact List.mem_cons_of_mem a (List.mem_cons_self hd tl)
      · exact List.mem_cons_of_mem a (List.mem_cons_of_mem hd h)

/-- The `max_by` fold dominates the accumulator and every list element
in squared magnitude. -/
theorem maxByFold_ge (l : List V2) (a : V2) :
    ∀ u ∈ a :: l, u.magnitude2 ≤
      (l.foldl (fun acc u =>
        if acc.magnitude2 > u.magnitude2 then acc else u) a).magnitude2 := by
  induction l generalizing a with
  | nil =>
    intro u hu
    have hua : u = a := by simpa using hu
    rw [hua]
    simp [List.foldl]
  | cons hd tl ih =>
    intro u hu
    simp only [List.foldl]
    by_cases hc : a.magnitude2 > hd.magnitude2
    · rw [if_pos hc]
      rcases List.mem_cons.1 hu with h1 | h2
      · rw [h1]; exact ih a a (List.mem_cons_self a tl)
      · rcases List.mem_cons.1 h2 with h3 | h4
        · rw [h3]
          exact le_trans (le_of_lt hc) (ih a a (List.mem_cons_self a tl))
        · exact ih a u (List.mem_cons_of_mem a h4)
    · rw [if_neg hc]
      rcases List.mem_cons.1 hu with h1 | h2
      · rw [h1]
        exact le_trans (not_lt.1 hc) (ih hd hd (List.mem_cons_self hd tl))
      · rcases List.mem_cons.1 h2 with h3 | h4
        · rw [h3]; exact ih hd hd (List.mem_cons_self hd tl)
        · exact ih hd u (List.mem_cons_of_mem hd h4)

/-- Rust `max_by` on a non-empty list returns a maximal element of the list. -/
theorem maxByMagnitude2_spec (l : List V2) (v : V2)
    (h : maxByMagnitude2 l = some v) :
    v ∈ l ∧ ∀ u ∈ l, u.magnitude2 ≤ v.magnitude2 := by
  cases l with
  | nil => simp [maxByMagnitude2] at h
  | cons hd tl =>
    unfold maxByMagnitude2 at h
    have hv := Option.some.inj h
    constructor
    · rw [← hv]; exact maxByFold_mem tl hd
    · intro u hu
      rw [← hv]
      exact maxByFold_ge tl hd u hu

/-- Collecting the velocities of the collided entities with a total
lookup is a `map`. -/
theorem filterMap_total_velocity (g : Nat → V2) (l : List Collision) :
    l.filterMap (fun c => some (g c.stationary_entity_id)) =
      l.map (fun c => g c.stationary_entity_id) := by
  induction l with
  | nil => rfl
  | cons hd tl ih => simp [List.filterMap_cons, ih]

/-- C6: the support query probes with the fixed straight-down movement
`(0,1)`; `can_jump` is true iff the resulting multi-best collision set
is non-empty; and — for a total velocity lookup — `max_velocity` returns
a velocity of an entity in that set whose squared magnitude dominates
every entity in the set (and `none` exactly when the set is empty). -/
theorem C6_support_query (provider : List ShapePosition)
    (sp : ShapePosition) (g : Nat → V2) :
    collisionsBelow provider sp = closestCollisions provider sp ⟨0, 1⟩ ∧
      (canJump (collisionsBelow provider sp) = true ↔
        collisionsBelow provider sp ≠ []) ∧
      (match maxVelocity (fun i => some (g i)) (collisionsBelow provider sp) with
       | none => collisionsBelow provider sp = []
       | some v =>
         (∃ c ∈ collisionsBelow provider sp, v = g c.stationary_entity_id) ∧
           ∀ c ∈ collisionsBelow provider sp,
             (g c.stationary_entity_id).magnitude2 ≤ v.magnitude2) := by
  refine ⟨rfl, ?_, ?_⟩
  · simp [canJump, List.isEmpty_iff]
  · cases hcb : collisionsBelow provider sp with
    | nil => simp [maxVelocity]
    | cons hd tl =>
      have hne : ((hd :: tl : List Collision).isEmpty) = false := by simp
      simp only [maxVelocity, hne, Bool.false_eq_true, if_false]
      rw [filterMap_total_velocity]
      cases hmax : maxByMagnitude2
          ((hd :: tl).map (fun c => g c.stationary_entity_id)) with
      | none => simp [maxByMagnitude2] at hmax
      | some w =>
        have hspec := maxByMagnitude2_spec _ w hmax
        simp only [Option.getD]
        constructor
        · rcases List.mem_map.1 hspec.1 with ⟨c, hc, hcw⟩
          exact ⟨c, hc, hcw.symm⟩
        · intro c hc
          exact hspec.2 (g c.stationary_entity_id)
            (List.mem_map.2 ⟨c, hc, rfl⟩)

/-- Rust `insert_lt` preserves any predicate that holds of the held set and
of the inserted candidate. -/
theorem insertLt_pred (P : Collision → Prop) (best : List Collision)
    (c : Collision) (hbest : ∀ x ∈ best, P x) (hc : P c) :
    ∀ x ∈ insertLt best c, P x := by
  intro x hx
  cases best with
  | nil =>
    unfold insertLt at hx
    simp at hx
    rw [hx]; exact hc
  | cons b rest =>
    unfold insertLt at hx
    simp only [List.head?] at hx
    by_cases h1 : c.key < b.key
    · rw [if_pos h1] at hx
      simp at hx
      rw [hx]; exact hc
    · rw [if_neg h1] at hx
      by_cases h2 : c.key = b.key
      · rw [if_pos h2] at hx
        rcases List.mem_append.1 hx with h | h
        · exact hbest x h
        · simp at h; rw [h]; exact hc
      · rw [if_neg h2] at hx
        exact hbest x hx

/-- Every collision inserted by `movement_collision_test` carries the
stationary candidate's entity id. -/
theorem movementCollisionTest_pred (sp other : ShapePosition)
    (movement : V2) (best : List Collision)
    (hbest : ∀ x ∈ best, x.stationary_entity_id ≠ sp.entity_id)
    (hother : other.entity_id ≠ sp.entity_id) :
    ∀ x ∈ movementCollisionTest sp other movement best,
      x.stationary_entity_id ≠ sp.entity_id := by
  unfold movementCollisionTest
  generalize forEachMovementCollision sp.shape sp.position other.shape
    other.position movement = cwsList
  induction cwsList generalizing best with
  | nil => exact hbest
  | cons hd tl ih =>
    simp only [List.foldl]
    exact ih (insertLt best ⟨other.entity_id, hd⟩)
      (insertLt_pred _ best ⟨other.entity_id, hd⟩ hbest hother)

/-- The accumulator invariant of `closest_collisions` over the
broad-phase candidate list. -/
theorem closestCollisions_fold_pred (sp : ShapePosition) (movement : V2) :
    ∀ (provider : List ShapePosition) (best : List Collision),
      (∀ x ∈ best, x.stationary_entity_id ≠ sp.entity_id) →
      ∀ x ∈ provider.foldl (fun best other =>
          if other.entity_id ≠ sp.entity_id then
            movementCollisionTest sp other movement best
          else best) best,
        x.stationary_entity_id ≠ sp.entity_id := by
  intro provider
  induction provider with
  | nil => intro best hbest; exact hbest
  | cons hd tl ih =>
    intro best hbest
    simp only [List.foldl]
    by_cases h : hd.entity_id ≠ sp.entity_id
    · rw [if_pos h]
      exact ih _ (movementCollisionTest_pred sp hd movement best hbest h)
    · rw [if_neg h]
      exact ih _ hbest

/-- C10: an entity is never tested against its own shape — in both
`closest_collisions` and `for_each_collision` every candidate whose
entity id equals the moving entity's id is skipped before the
narrow-phase test, so the returned multi-best set never contains a
collision tagged with the queried entity's own id, and the displacement
callback is never invoked with the queried entity's id. -/
theorem C10_never_self_collide :
    (∀ (provider : List ShapePosition) (sp : ShapePosition) (movement : V2),
      ∀ c ∈ closestCollisions provider sp movement,
        c.stationary_entity_id ≠ sp.entity_id) ∧
      (∀ (provider : List ShapePosition) (sp : ShapePosition) (movement : V2),
        ∀ pr ∈ forEachCollision provider sp movement,
          pr.1 ≠ sp.entity_id ∧
            pr.2.stationary_entity_id ≠ sp.entity_id) := by
  constructor
  · intro provider sp movement c hc
    exact closestCollisions_fold_pred sp movement provider []
      (by intro x hx; simp at hx) c hc
  · intro provider sp movement pr hpr
    unfold forEachCollision at hpr
    rcases List.mem_filterMap.1 hpr with ⟨other, _hmem, hf⟩
    by_cases h : other.entity_id ≠ sp.entity_id
    · rw [if_pos h] at hf
      cases hh : (movementCollisionTest sp other movement []).head? with
      | none => rw [hh] at hf; simp at hf
      | some c =>
        rw [hh] at hf
        simp at hf
        have hcmem : c ∈ movementCollisionTest sp other movement [] :=
          List.mem_of_mem_head? hh
        have hcid := movementCollisionTest_pred sp other movement []
          (by intro x hx; simp at hx) h c hcmem
        rw [← hf]
        exact ⟨h, hcid⟩
    · rw [if_neg h] at hf
      simp at hf

/-- A concrete moving shape: one default-channel edge `(0,0)-(1,0)`. -/
def demoMoverShape : ShapeM := ⟨fun _ => [Edge.new ⟨0, 0⟩ ⟨1, 0⟩]⟩

/-- A concrete obstacle shape: one default-channel edge `(1,1)-(0,1)`
whose solid side faces the mover above it. -/
def demoFloorShape : ShapeM := ⟨fun _ => [Edge.new ⟨1, 1⟩ ⟨0, 1⟩]⟩

/-- The moving entity, id 0, at the origin. -/
def demoMover : ShapePosition := ⟨0, demoMoverShape, ⟨0, 0⟩⟩

/-- The obstacle entity, id 1, at the origin. -/
def demoFloor : ShapePosition := ⟨1, demoFloorShape, ⟨0, 0⟩⟩

/-- A broad-phase candidate carrying the mover's own id 0 — the
self-skip guard must drop it. -/
def demoSelfCandidate : ShapePosition := ⟨0, demoFloorShape, ⟨0, 0⟩⟩

/-- The collision the demo geometry produces: the mover's edge touches
the floor edge after the full downward movement (`t = 1`). -/
def demoCollision : Collision := ⟨1, ⟨1, ⟨⟨1, 1⟩, ⟨0, 1⟩⟩⟩⟩

theorem demo_vertex_a : vertexEdgeT ⟨0, 0⟩ ⟨⟨1, 1⟩, ⟨0, 1⟩⟩ ⟨0, 1⟩ = some 1 := by
  norm_num [vertexEdgeT, V2.cross, LeftSolidEdge.vector]

theorem demo_vertex_b : vertexEdgeT ⟨1, 0⟩ ⟨⟨1, 1⟩, ⟨0, 1⟩⟩ ⟨0, 1⟩ = some 1 := by
  norm_num [vertexEdgeT, V2.cross, LeftSolidEdge.vector]

theorem demo_vertex_c : vertexEdgeT ⟨1, 1⟩ ⟨⟨0, 0⟩, ⟨1, 0⟩⟩ (-⟨0, 1⟩) = some 1 := by
  norm_num [vertexEdgeT, V2.cross, LeftSolidEdge.vector]

theorem demo_vertex_d : vertexEdgeT ⟨0, 1⟩ ⟨⟨0, 0⟩, ⟨1, 0⟩⟩ (-⟨0, 1⟩) = some 1 := by
  norm_num [vertexEdgeT, V2.cross, LeftSolidEdge.vector]

/-- The demo narrow phase: the mover's edge first touches the floor
edge at parameter 1. -/
theorem demo_narrow_phase :
    collideWithStationaryEdge ⟨⟨0, 0⟩, ⟨1, 0⟩⟩ ⟨⟨1, 1⟩, ⟨0, 1⟩⟩ ⟨0, 1⟩ =
      some ⟨1, ⟨⟨1, 1⟩, ⟨0, 1⟩⟩⟩ := by
  simp only [collideWithStationaryEdge, demo_vertex_a, demo_vertex_b,
    demo_vertex_c, demo_vertex_d, List.filterMap, listMinQ, Option.map, id]
  norm_num

/-- The demo pipeline: the self candidate is skipped and the floor's
collision is the whole multi-best set — the concrete witness that the
pipeline produces non-empty sets. -/
theorem demo_closest_collisions :
    closestCollisions [demoSelfCandidate, demoFloor] demoMover ⟨0, 1⟩ =
      [demoCollision] := by
  simp only [closestCollisions, List.foldl, movementCollisionTest,
    forEachMovementCollision, demoMover, demoFloor, demoSelfCandidate,
    demoMoverShape, demoFloorShape, demoCollision, Edge.new, channels.MAIN,
    List.flatMap, List.filterMap, List.map, List.flatten, List.append,
    LeftSolidEdge.add_vector]
  norm_num [V2.mk_add_mk, demo_narrow_phase, insertLt]

/-- The demo displacement enumeration: the self candidate is skipped and
the callback is invoked once, for the floor. -/
theorem demo_for_each_collision :
    forEachCollision [demoSelfCandidate, demoFloor] demoMover ⟨0, 1⟩ =
      [(1, demoCollision)] := by
  simp only [forEachCollision, List.filterMap, movementCollisionTest,
    forEachMovementCollision, demoMover, demoFloor, demoSelfCandidate,
    demoMoverShape, demoFloorShape, demoCollision, Edge.new, channels.MAIN,
    List.flatMap, List.map, List.flatten, List.append,
    LeftSolidEdge.add_vector]
  norm_num [V2.mk_add_mk, demo_narrow_phase, insertLt]

/-- Witness for C10 on the demo geometry: the produced collision is in
the set and its stationary id (1) differs from the mover's id (0), for
both enumerations. -/
theorem C10_never_self_collide_witness :
    (demoCollision ∈ closestCollisions [demoSelfCandidate, demoFloor]
        demoMover ⟨0, 1⟩ ∧
      demoCollision.stationary_entity_id ≠ demoMover.entity_id) ∧
      ((1, demoCollision) ∈ forEachCollision [demoSelfCandidate, demoFloor]
          demoMover ⟨0, 1⟩ ∧
        (1, demoCollision).1 ≠ demoMover.entity_id ∧
          (1, demoCollision).2.stationary_entity_id ≠ demoMover.entity_id) := by
  have hmem1 : demoCollision ∈ closestCollisions
      [demoSelfCandidate, demoFloor] demoMover ⟨0, 1⟩ := by
    rw [demo_closest_collisions]; exact List.mem_singleton.2 rfl
  have hmem2 : (1, demoCollision) ∈ forEachCollision
      [demoSelfCandidate, demoFloor] demoMover ⟨0, 1⟩ := by
    rw [demo_for_each_collision]; exact List.mem_singleton.2 rfl
  exact ⟨⟨hmem1,
      C10_never_self_collide.1 [demoSelfCandidate, demoFloor] demoMover
        ⟨0, 1⟩ demoCollision hmem1⟩,
    ⟨hmem2,
      C10_never_self_collide.2 [demoSelfCandidate, demoFloor] demoMover
        ⟨0, 1⟩ (1, demoCollision) hmem2⟩⟩

/-- C9 counterexample: the claim says an id yielded by the spatial index
but absent from the `common` store always makes the enumeration fail
with a panic, never silently skipping and never continuing — but
`DynamicPhysicsShapePositions::for_each` checks the `dynamic_physics`
set before the `unwrap`, so a missing id outside that set is silently
skipped and the enumeration completes: with an empty store, a dynamic
set that contains nothing, and the index yielding id 0, the result is
`some []`, not a panic. -/
theorem C9_counterexample_dynamic_skips_missing_id :
    (fun _ => (none : Option EntityCommon)) 0 = none ∧
      dynamicPhysicsShapePositionsForEach (fun _ => false)
          (fun _ => none) [0] =
        some [] :=
  ⟨rfl, rfl⟩

/-- C9 (amended): `AllShapePositions::for_each` panics whenever any
yielded id is absent from the store — regardless of what follows it —
and every shape position it does emit is read verbatim from the store;
`DynamicPhysicsShapePositions::for_each` behaves the same for ids in the
`dynamic_physics` set (ids outside that set are filtered out before the
lookup), and it, too, never fabricates data. -/
theorem C9_missing_id_is_fatal_amended :
    (∀ (store : Nat → Option EntityCommon) (l1 l2 : List Nat) (bad : Nat),
        store bad = none →
        allShapePositionsForEach store (l1 ++ bad :: l2) = none) ∧
      (∀ (store : Nat → Option EntityCommon) (ids : List Nat)
          (out : List ShapePosition),
        allShapePositionsForEach store ids = some out →
        ∀ sp ∈ out, ∃ c, store sp.entity_id = some c ∧
          sp.shape = c.shape ∧ sp.position = c.position) ∧
      (∀ (dyn : Nat → Bool) (store : Nat → Option EntityCommon)
          (l1 l2 : List Nat) (bad : Nat),
        dyn bad = true → store bad = none →
        dynamicPhysicsShapePositionsForEach dyn store (l1 ++ bad :: l2) =
          none) ∧
      (∀ (dyn : Nat → Bool) (store : Nat → Option EntityCommon)
          (ids : List Nat) (out : List ShapePosition),
        dynamicPhysicsShapePositionsForEach dyn store ids = some out →
        ∀ sp ∈ out, ∃ c, store sp.entity_id = some c ∧
          sp.shape = c.shape ∧ sp.position = c.position) := by
  refine ⟨?_, ?_, ?_, ?_⟩
  · intro store l1 l2 bad hbad
    induction l1 with
    | nil =>
      simp only [List.nil_append, allShapePositionsForEach, hbad]
    | cons hd tl ih =>
      simp only [List.cons_append, allShapePositionsForEach]
      cases store hd with
      | none => rfl
      | some c => simp only [List.append_eq, ih, Option.map_none']
  · intro store ids
    induction ids with
    | nil =>
      intro out hout sp hsp
      simp only [allShapePositionsForEach] at hout
      have : out = [] := by simpa using hout.symm
      rw [this] at hsp
      simp at hsp
    | cons hd tl ih =>
      intro out hout sp hsp
      simp only [allShapePositionsForEach] at hout
      cases hst : store hd with
      | none => rw [hst] at hout; simp at hout
      | some c =>
        rw [hst] at hout
        cases hrec : allShapePositionsForEach store tl with
        | none => rw [hrec] at hout; simp at hout
        | some rest =>
          rw [hrec] at hout
          simp only [Option.map_some'] at hout
          have hout2 := Option.some.inj hout
          rw [← hout2] at hsp
          rcases List.mem_cons.1 hsp with h | h
          · rw [h]
            exact ⟨c, hst, rfl, rfl⟩
          · exact ih rest hrec sp h
  · intro dyn store l1 l2 bad hdyn hbad
    induction l1 with
    | nil =>
      simp only [List.nil_append, dynamicPhysicsShapePositionsForEach, hdyn,
        if_true, hbad]
    | cons hd tl ih =>
      simp only [List.cons_append, dynamicPhysicsShapePositionsForEach]
      by_cases h : dyn hd = true
      · rw [if_pos h]
        cases store hd with
        | none => rfl
        | some c => simp only [List.append_eq, ih, Option.map_none']
      · rw [if_neg h]
        exact ih
  · intro dyn store ids
    induction ids with
    | nil =>
      intro out hout sp hsp
      simp only [dynamicPhysicsShapePositionsForEach] at hout
      have : out = [] := by simpa using hout.symm
      rw [this] at hsp
      simp at hsp
    | cons hd tl ih =>
      intro out hout sp hsp
      simp only [dynamicPhysicsShapePositionsForEach] at hout
      by_cases h : dyn hd = true
      · rw [if_pos h] at hout
        cases hst : store hd with
        | none => rw [hst] at hout; simp at hout
        | some c =>
          rw [hst] at hout
          cases hrec : dynamicPhysicsShapePositionsForEach dyn store tl with
          | none => rw [hrec] at hout; simp at hout
          | some rest =>
            rw [hrec] at hout
            simp only [Option.map_some'] at hout
            have hout2 := Option.some.inj hout
            rw [← hout2] at hsp
            rcases List.mem_cons.1 hsp with hh | hh
            · rw [hh]
              exact ⟨c, hst, rfl, rfl⟩
            · exact ih rest hrec sp hh
      · rw [if_neg h] at hout
        exact ih out hout sp hsp

/-- A populated store entry for the C9 witness. -/
def demoCommon : EntityCommon := ⟨⟨5, 6⟩, demoFloorShape, (0, 0, 0)⟩

/-- A store holding only entity 0. -/
def demoStore : Nat → Option EntityCommon :=
  fun i => if i = 0 then some demoCommon else none

/-- Witness for the amended C9 on a concrete store holding only id 0:
the index yielding `[0, 1]` panics both enumerations (id 1 in the
dynamic set), and the emitted entry for the successful run `[0]` is read
verbatim from the store. -/
theorem C9_missing_id_is_fatal_amended_witness :
    (demoStore 1 = none ∧
      allShapePositionsForEach demoStore [0, 1] = none) ∧
      (allShapePositionsForEach demoStore [0] =
          some [⟨0, demoFloorShape, ⟨5, 6⟩⟩] ∧
        ∃ c, demoStore (0 : Nat) = some c ∧
          demoFloorShape = c.shape ∧ (⟨5, 6⟩ : V2) = c.position) ∧
      ((fun _ => true : Nat → Bool) 1 = true ∧ demoStore 1 = none ∧
        dynamicPhysicsShapePositionsForEach (fun _ => true) demoStore
            [0, 1] =
          none) :=
  ⟨⟨rfl, C9_missing_id_is_fatal_amended.1 demoStore [0] [] 1 rfl⟩,
   ⟨rfl,
    C9_missing_id_is_fatal_amended.2.1 demoStore [0]
      [⟨0, demoFloorShape, ⟨5, 6⟩⟩] rfl ⟨0, demoFloorShape, ⟨5, 6⟩⟩
      (List.mem_singleton.2 rfl)⟩,
   ⟨rfl, rfl,
    C9_missing_id_is_fatal_amended.2.2.1 (fun _ => true) demoStore [0] [] 1
      rfl rfl⟩⟩
